import Mathlib

set_option maxRecDepth 4000

/-!
Verification development for the ds-cli Datastore command-line client
(src/main.py). The Python source is shallowly embedded: Python strings
become lists of characters (Unicode code points, exactly as Python
models text), Python dicts become insertion-ordered association lists,
Python sets become duplicate-free lists in insertion order, JSON scalars
become the inductive type JVal, and code that can raise becomes
Option / Except valued functions. Each embedded definition carries a
doc comment naming the source construct it models.
-/

namespace DsCli

/-- Python strings are sequences of Unicode code points; we model them as
lists of Lean characters. -/
abbrev PyStr := List Char

/-- Model of a JSON scalar as produced by response.json() and consumed by
the core: null, booleans, integers and strings. Composite payloads
(arrayValue, entityValue payloads) are passed through unchanged by the
source and are not needed by any claim, so they are omitted from the
model. JSON numbers appearing here (entity ids) are integers. -/
inductive JVal where
  | null : JVal
  | bool (b : Bool) : JVal
  | num (n : Int) : JVal
  | str (s : PyStr) : JVal
deriving DecidableEq, Repr, Inhabited

/-- Wire encoding of one property: the Python dict mapping key names
(such as stringValue, nullValue, excludeFromIndexes) to JSON payloads,
as an insertion-ordered association list. -/
abbrev TaggedValue := List (PyStr × JVal)

/-- One element of batch.entityResults as consumed by the source:
the kind (entity.key.path[0].kind), the raw id field of the first path
segment (entity.key.path[0].id, a JSON value, usually a decimal string),
and the properties dict (entity.properties). -/
structure EntityResult where
  kind : PyStr
  keyId : JVal
  properties : List (PyStr × TaggedValue)
deriving DecidableEq, Repr, Inhabited

/-- Model of the Python substring test (the expression: "Value" in k),
specialised to the only pattern the source uses, the literal "Value". -/
def pyContainsValue : List Char → Bool
  | 'V' :: 'a' :: 'l' :: 'u' :: 'e' :: _ => true
  | _ :: rest => pyContainsValue rest
  | [] => false

/-- Model of the Python call k.replace("Value", ""): delete every
left-to-right non-overlapping occurrence of the literal "Value". -/
def pyRemoveValue : List Char → List Char
  | 'V' :: 'a' :: 'l' :: 'u' :: 'e' :: rest => pyRemoveValue rest
  | c :: rest => c :: pyRemoveValue rest
  | [] => []

/-- Whitespace characters stripped by Python str.strip() restricted to
the ASCII range (the response bodies compared by the source are ASCII;
the additional Unicode spaces Python strips are irrelevant here). -/
def isPySpace (c : Char) : Bool :=
  c = ' ' || c = '\t' || c = '\n' || c = '\r' || c = '\x0b' || c = '\x0c'

/-- Model of Python str.strip(): drop leading and trailing whitespace. -/
def pyStrip (s : List Char) : List Char :=
  (((s.dropWhile isPySpace).reverse).dropWhile isPySpace).reverse

/-- Lookup in a Python dict modelled as an association list:
d.get(k) / d[k] returns the value of the first entry whose key equals k. -/
def dictGet (k : PyStr) : List (PyStr × α) → Option α
  | [] => none
  | (k1, v) :: rest => if k1 = k then some v else dictGet k rest

/-- Assignment d[k] = v in a Python dict modelled as an association
list: overwrite the first entry with key k if present, otherwise append
the new entry at the end (insertion order, exactly as Python dicts). -/
def dictSet (k : PyStr) (v : α) : List (PyStr × α) → List (PyStr × α)
  | [] => [(k, v)]
  | (k1, v1) :: rest =>
    if k1 = k then (k, v) :: rest else (k1, v1) :: dictSet k v rest

/-- Python set.add on a set modelled as a duplicate-free list kept in
insertion order: append the element when it is not already present. -/
def setAdd (t : PyStr) (s : List PyStr) : List PyStr :=
  if t ∈ s then s else s ++ [t]

/-- Key name blobValue, the binary tag of the wire encoding. -/
def blobKey : PyStr := "blobValue".data

/-- Key name excludeFromIndexes, the metadata key the inferencer skips. -/
def excludeKey : PyStr := "excludeFromIndexes".data

/-- Literal null, the tag the inferencer refuses to record. -/
def nullTag : PyStr := "null".data

/-! Base64, modelling Python base64.b64encode / b64decode (RFC 4648)
on canonical well-formed input: the alphabet A-Z a-z 0-9 + /, four
characters per three bytes, padded with = in the final group. The
decoder is the strict inverse; Python additionally tolerates some
malformed inputs, which no claim exercises. -/

/-- Character of the base64 alphabet for a sextet value below 64. -/
def b64Char (n : Nat) : Char :=
  if n < 26 then Char.ofNat (65 + n)
  else if n < 52 then Char.ofNat (97 + (n - 26))
  else if n < 62 then Char.ofNat (48 + (n - 52))
  else if n = 62 then '+'
  else '/'

/-- Sextet value of a base64 alphabet character, none when the character
is outside the alphabet (in particular for the padding character). -/
def b64Index (c : Char) : Option Nat :=
  let v := c.toNat
  if 65 ≤ v ∧ v ≤ 90 then some (v - 65)
  else if 97 ≤ v ∧ v ≤ 122 then some (26 + (v - 97))
  else if 48 ≤ v ∧ v ≤ 57 then some (52 + (v - 48))
  else if v = 43 then some 62
  else if v = 47 then some 63
  else none

/-- Base64 encoding of a byte list (Python base64.b64encode, with the
resulting ASCII text as a character list). -/
def b64EncodeGroups : List Nat → List Char
  | a :: b :: c :: rest =>
    b64Char (a / 4) :: b64Char (a % 4 * 16 + b / 16) ::
      b64Char (b % 16 * 4 + c / 64) :: b64Char (c % 64) :: b64EncodeGroups rest
  | [a, b] => [b64Char (a / 4), b64Char (a % 4 * 16 + b / 16), b64Char (b % 16 * 4), '=']
  | [a] => [b64Char (a / 4), b64Char (a % 4 * 16), '=', '=']
  | [] => []

/-- Base64 decoding of a character list into bytes (Python
base64.b64decode on canonical input); none models the binascii error
raised on malformed input. -/
def b64DecodeGroups : List Char → Option (List Nat)
  | c1 :: c2 :: c3 :: c4 :: rest =>
    (match b64Index c1, b64Index c2 with
     | some n1, some n2 =>
       if c3 = '=' then
         if c4 = '=' ∧ rest = [] then some [n1 * 4 + n2 / 16] else none
       else
         (match b64Index c3 with
          | some n3 =>
            if c4 = '=' then
              if rest = [] then some [n1 * 4 + n2 / 16, n2 % 16 * 16 + n3 / 4] else none
            else
              (match b64Index c4, b64DecodeGroups rest with
               | some n4, some tail =>
                 some ((n1 * 4 + n2 / 16) :: (n2 % 16 * 16 + n3 / 4) :: (n3 % 4 * 64 + n4) :: tail)
               | _, _ => none)
          | none => none)
     | _, _ => none)
  | [] => some []
  | _ => none

/-! UTF-8, modelling Python str.encode("utf-8") / bytes.decode("utf-8").
Lean characters are exactly the Unicode scalar values, which is also
what Python str contains, so the encoder is total and the decoder
rejects exactly what CPython rejects on scalar sequences: truncated
sequences, stray continuation bytes, overlong forms, surrogates and
code points above 0x10FFFF. -/

/-- UTF-8 encoding of one Unicode scalar value. -/
def utf8EncodeChar (c : Char) : List Nat :=
  if c.toNat < 128 then [c.toNat]
  else if c.toNat < 2048 then [192 + c.toNat / 64, 128 + c.toNat % 64]
  else if c.toNat < 65536 then
    [224 + c.toNat / 4096, 128 + c.toNat / 64 % 64, 128 + c.toNat % 64]
  else
    [240 + c.toNat / 262144, 128 + c.toNat / 4096 % 64, 128 + c.toNat / 64 % 64,
      128 + c.toNat % 64]

/-- UTF-8 encoding of a Python string (str.encode). -/
def utf8Encode (s : List Char) : List Nat :=
  s.foldr (fun c acc => utf8EncodeChar c ++ acc) []

/-- Scalar value of a two-byte UTF-8 sequence: a C0-DF lead byte, one
continuation byte, and no overlong form; none on anything else. -/
def utf8Two (b b1 : Nat) : Option Nat :=
  if 192 ≤ b ∧ b < 224 ∧ 128 ≤ b1 ∧ b1 < 192 ∧ 128 ≤ (b - 192) * 64 + (b1 - 128) then
    some ((b - 192) * 64 + (b1 - 128))
  else none

/-- Scalar value of a three-byte UTF-8 sequence: an E0-EF lead byte, two
continuation bytes, no overlong form and no surrogate; none otherwise. -/
def utf8Three (b b1 b2 : Nat) : Option Nat :=
  if 224 ≤ b ∧ b < 240 ∧ 128 ≤ b1 ∧ b1 < 192 ∧ 128 ≤ b2 ∧ b2 < 192 ∧
      2048 ≤ (b - 224) * 4096 + (b1 - 128) * 64 + (b2 - 128) ∧
      ¬(55296 ≤ (b - 224) * 4096 + (b1 - 128) * 64 + (b2 - 128) ∧
        (b - 224) * 4096 + (b1 - 128) * 64 + (b2 - 128) < 57344) then
    some ((b - 224) * 4096 + (b1 - 128) * 64 + (b2 - 128))
  else none

/-- Scalar value of a four-byte UTF-8 sequence: an F0-F7 lead byte,
three continuation bytes, no overlong form and a code point of at most
0x10FFFF; none otherwise. -/
def utf8Four (b b1 b2 b3 : Nat) : Option Nat :=
  if 240 ≤ b ∧ b < 248 ∧ 128 ≤ b1 ∧ b1 < 192 ∧ 128 ≤ b2 ∧ b2 < 192 ∧ 128 ≤ b3 ∧ b3 < 192 ∧
      65536 ≤ (b - 240) * 262144 + (b1 - 128) * 4096 + (b2 - 128) * 64 + (b3 - 128) ∧
      (b - 240) * 262144 + (b1 - 128) * 4096 + (b2 - 128) * 64 + (b3 - 128) ≤ 1114111 then
    some ((b - 240) * 262144 + (b1 - 128) * 4096 + (b2 - 128) * 64 + (b3 - 128))
  else none

/-- UTF-8 decoding of a byte list (bytes.decode); none models the
UnicodeDecodeError raised on invalid input. An ASCII byte stands alone;
otherwise the two-, three- and four-byte readings are tried in turn
(their lead-byte ranges are disjoint, so at most one applies), and a
stray continuation byte, an out-of-range lead byte, a truncated
sequence, an overlong form, a surrogate, or a code point above 0x10FFFF
all fail, exactly as in CPython. -/
def utf8Decode : List Nat → Option (List Char)
  | [] => some []
  | [b] => if b < 128 then some [Char.ofNat b] else none
  | [b, b1] =>
    if b < 128 then (utf8Decode [b1]).map (fun cs => Char.ofNat b :: cs)
    else
      (match utf8Two b b1 with
       | some n => some [Char.ofNat n]
       | none => none)
  | [b, b1, b2] =>
    if b < 128 then (utf8Decode [b1, b2]).map (fun cs => Char.ofNat b :: cs)
    else
      (match utf8Two b b1 with
       | some n => (utf8Decode [b2]).map (fun cs => Char.ofNat n :: cs)
       | none =>
         match utf8Three b b1 b2 with
         | some n => some [Char.ofNat n]
         | none => none)
  | b :: b1 :: b2 :: b3 :: bs3 =>
    if b < 128 then (utf8Decode (b1 :: b2 :: b3 :: bs3)).map (fun cs => Char.ofNat b :: cs)
    else
      (match utf8Two b b1 with
       | some n => (utf8Decode (b2 :: b3 :: bs3)).map (fun cs => Char.ofNat n :: cs)
       | none =>
         match utf8Three b b1 b2 with
         | some n => (utf8Decode (b3 :: bs3)).map (fun cs => Char.ofNat n :: cs)
         | none =>
           match utf8Four b b1 b2 b3 with
           | some n => (utf8Decode bs3).map (fun cs => Char.ofNat n :: cs)
           | none => none)

/-- Model of the blob payload conversion in _parse_properties:
b64decode(v).decode("utf-8"); none models either exception. -/
def pyB64DecodeUtf8 (t : List Char) : Option (List Char) :=
  match b64DecodeGroups t with
  | some bytes => utf8Decode bytes
  | none => none

/-- Decoding of one TaggedValue, modelling the inner loop of
_parse_properties (src/main.py lines 104-115): the property value starts
as None; the first key containing the substring "Value" wins (break),
with the blobValue payload base64-decoded and UTF-8-decoded and every
other payload returned unchanged; when no key matches, the value stays
None. The none result models an uncaught exception from the blob
branch. -/
def parseTagged : TaggedValue → Option JVal
  | [] => some JVal.null
  | (k, v) :: rest =>
    if pyContainsValue k then
      if k = blobKey then
        match v with
        | JVal.str t =>
          (match pyB64DecodeUtf8 t with
           | some cs => some (JVal.str cs)
           | none => none)
        | _ => none
      else some v
    else parseTagged rest

/-- Model of _parse_properties (src/main.py lines 104-115): overwrite
every property of the dict, in place and in order, with the decoded
scalar of its TaggedValue; none models the first uncaught decoding
exception aborting the whole pass. -/
def parse_properties : List (PyStr × TaggedValue) → Option (List (PyStr × JVal))
  | [] => some []
  | (name, opt) :: rest =>
    match parseTagged opt with
    | some v =>
      (match parse_properties rest with
       | some out => some ((name, v) :: out)
       | none => none)
    | none => none

/-! Scheme inference, modelling generate_scheme (src/main.py lines
73-102). Phase one scans every entity of the batch and accumulates, in
the nested dict scheme[kind][property], the set of tags observed for
that property: each key of the wire dict contributes its name with
every "Value" substring removed, unless that stripped name is the
literal "null" or the key is the metadata key excludeFromIndexes.
Phase two collapses every tag set to one arbitrary element (set.pop),
or None when the set is empty. The model realises the arbitrary
selection as the first-inserted element. -/

/-- Tag contributed to the scheme by one wire key, none when the key
is filtered out (condition of src/main.py lines 89-92). -/
def tagOfKey (k : PyStr) : Option PyStr :=
  if pyRemoveValue k ≠ nullTag ∧ k ≠ excludeKey then some (pyRemoveValue k)
  else none

/-- Inner loop over the keys of one TaggedValue (for value in opt),
adding every admissible tag to the set. -/
def observeTags (ts : List PyStr) (opt : TaggedValue) : List PyStr :=
  opt.foldl
    (fun acc kv =>
      match tagOfKey kv.1 with
      | some t => setAdd t acc
      | none => acc)
    ts

/-- Loop over the properties dict of one entity, updating the per-kind
dict of tag sets (initialising an absent property to the empty set). -/
def collectProps (kp : List (PyStr × List PyStr))
    (props : List (PyStr × TaggedValue)) : List (PyStr × List PyStr) :=
  props.foldl
    (fun acc pr =>
      let ts := (dictGet pr.1 acc).getD []
      dictSet pr.1 (observeTags ts pr.2) acc)
    kp

/-- Processing of one entity result by the scanning phase: initialise
an absent kind to the empty dict, then fold its properties. -/
def collectEntity (scheme : List (PyStr × List (PyStr × List PyStr)))
    (e : EntityResult) : List (PyStr × List (PyStr × List PyStr)) :=
  let scheme1 :=
    if (dictGet e.kind scheme).isNone then dictSet e.kind [] scheme else scheme
  let kp := (dictGet e.kind scheme1).getD []
  dictSet e.kind (collectProps kp e.properties) scheme1

/-- Scanning phase of generate_scheme over the whole batch. -/
def collectBatch (es : List EntityResult) : List (PyStr × List (PyStr × List PyStr)) :=
  es.foldl collectEntity []

/-- Collapsing phase of generate_scheme for one tag set: an arbitrary
element when the set is non-empty (set.pop, realised as the
first-inserted element), otherwise None. -/
def collapseTags : List PyStr → Option PyStr
  | [] => none
  | t :: _ => some t

/-- The inferred scheme: kind to property to collapsed tag. -/
abbrev Scheme := List (PyStr × List (PyStr × Option PyStr))

/-- Model of generate_scheme (src/main.py lines 73-102): scan the batch,
then collapse every tag set in place. -/
def generate_scheme (es : List EntityResult) : Scheme :=
  (collectBatch es).map (fun kv => (kv.1, kv.2.map (fun pv => (pv.1, collapseTags pv.2))))

/-- Specification-side reading of the tags one properties dict
contributes to a given property name: the admissible tags of the wire
keys of every entry carrying that name, in order. -/
def specPropsTags (props : List (PyStr × TaggedValue)) (prop : PyStr) : List PyStr :=
  props.foldr
    (fun pr acc2 =>
      if pr.1 = prop then pr.2.filterMap (fun kv => tagOfKey kv.1) ++ acc2
      else acc2)
    []

/-- Specification-side reading of the observed tag set of one
(kind, property) pair, written after the words of the specification:
the tags contributed, across the whole batch in order, by the wire keys
of every occurrence of that property on an entity of that kind. The
claims compare generate_scheme against this flat description. -/
def specObservedTags (es : List EntityResult) (kind prop : PyStr) : List PyStr :=
  es.foldr
    (fun e acc =>
      if e.kind = kind then specPropsTags e.properties prop ++ acc
      else acc)
    []

/-- View of the tag set recorded for a property in one per-kind dict of
the scanning phase, reading an absent property as the empty set. -/
def kpTags (kp : List (PyStr × List PyStr)) (prop : PyStr) : List PyStr :=
  (dictGet prop kp).getD []

/-- View of the tag set recorded for a (kind, property) pair in the
nested dict of the scanning phase, reading an absent kind or property
as the empty set. -/
def schemeTags (scheme : List (PyStr × List (PyStr × List PyStr)))
    (kind prop : PyStr) : List PyStr :=
  match dictGet kind scheme with
  | none => []
  | some kp => kpTags kp prop

/-! HTTP boundary and the entity flattener. -/

/-- Model of one HTTP response as consumed by the source: the status
code, the body text, and the result of response.json() restricted to
the shape the source reads (batch.entityResults); none models a body
that is not such a JSON document. -/
structure HttpResponse where
  status_code : Nat
  text : PyStr
  jsonBody : Option (List EntityResult)
deriving DecidableEq, Repr, Inhabited

/-- Errors the embedded operations can raise: the generic transport
exception of get_scheme carrying status code and body text, a JSON
parse failure, the int() conversion failure on a key id, and a blob
decoding failure inside _parse_properties. -/
inductive DsError where
  | transport (status : Nat) (body : PyStr) : DsError
  | jsonError : DsError
  | typeConv : DsError
  | valueDecode : DsError
deriving DecidableEq, Repr, Inhabited

/-- Digit test for the model of int(). -/
def isAsciiDigit (c : Char) : Bool := 48 ≤ c.toNat && c.toNat ≤ 57

/-- Numeric value of a digit string. -/
def digitsToNat (ds : List Char) : Nat :=
  ds.foldl (fun acc c => acc * 10 + (c.toNat - 48)) 0

/-- Model of the Python call int(s) on a string: surrounding whitespace
is stripped, then an optional sign followed by one or more digits;
none models the ValueError raised otherwise. (Digit-group underscores,
which Python also accepts, are not modelled; no claim exercises them.) -/
def pyIntOfStr (s : PyStr) : Option Int :=
  match pyStrip s with
  | '+' :: ds =>
    if ds ≠ [] ∧ ds.all isAsciiDigit then some (Int.ofNat (digitsToNat ds)) else none
  | '-' :: ds =>
    if ds ≠ [] ∧ ds.all isAsciiDigit then some (-(Int.ofNat (digitsToNat ds))) else none
  | ds =>
    if ds ≠ [] ∧ ds.all isAsciiDigit then some (Int.ofNat (digitsToNat ds)) else none

/-- Model of the Python call int(v) on a JSON scalar: integers pass
through, strings are parsed, booleans coerce to 0 or 1, and None
raises (none). -/
def pyInt : JVal → Option Int
  | JVal.num n => some n
  | JVal.str s => pyIntOfStr s
  | JVal.bool b => some (if b then 1 else 0)
  | JVal.null => none

/-- One flattened entity record as built by format_response:
key.kind, key.id coerced with int(), and the flattened properties. -/
structure FlatEntity where
  kind : PyStr
  id : Int
  properties : List (PyStr × JVal)
deriving DecidableEq, Repr, Inhabited

/-- Flattening of one entity result inside the loop of format_response
(src/main.py lines 128-141): int() on the id segment first (ValueError
modelled as typeConv), then _parse_properties (whose exceptions are
modelled as valueDecode). -/
def formatEntity (e : EntityResult) : Except DsError FlatEntity :=
  match pyInt e.keyId with
  | some n =>
    (match parse_properties e.properties with
     | some ps => Except.ok (FlatEntity.mk e.kind n ps)
     | none => Except.error DsError.valueDecode)
  | none => Except.error DsError.typeConv

/-- Combined output document printed by format_response: the inferred
scheme and the flattened entities. -/
structure OutputData where
  scheme : Scheme
  entities : List FlatEntity
deriving DecidableEq, Repr, Inhabited

/-- Style option name scheme. -/
def schemeStyle : PyStr := "scheme".data

/-- Model of format_response (src/main.py lines 117-149) up to the
serialisation format: on a 200 response, parse the JSON, infer the
scheme, and (for the scheme style) flatten every entity in order,
aborting at the first exception; on any other status code the function
body is skipped entirely, so nothing is produced and nothing is raised
(ok none). The format parameter only chooses the printing backend and
does not affect the computed data, so it is not modelled. -/
def format_response (r : HttpResponse) (style : PyStr) :
    Except DsError (Option OutputData) :=
  if r.status_code = 200 then
    match r.jsonBody with
    | some es =>
      if style = schemeStyle then
        (match es.mapM formatEntity with
         | Except.ok ents => Except.ok (some (OutputData.mk (generate_scheme es) ents))
         | Except.error err => Except.error err)
      else Except.ok (some (OutputData.mk (generate_scheme es) []))
    | none => Except.error DsError.jsonError
  else Except.ok none

/-- Model of get_scheme (src/main.py lines 58-71) applied to the
response of the query endpoint (the HTTP call itself is abstracted as
the given response): on 200, infer the scheme from the parsed JSON;
otherwise raise the generic transport exception carrying the status
code and the body text. -/
def get_scheme (r : HttpResponse) : Except DsError Scheme :=
  if r.status_code = 200 then
    match r.jsonBody with
    | some es => Except.ok (generate_scheme es)
    | none => Except.error DsError.jsonError
  else Except.error (DsError.transport r.status_code r.text)

/-- Body text the health check expects. -/
def okBody : PyStr := "Ok".data

/-- Model of test_connection (src/main.py lines 213-214) applied to the
body text of the GET response: requests.get(host).text.strip() == "Ok". -/
def test_connection (bodyText : PyStr) : Bool :=
  pyStrip bodyText == okBody

/-! Lemmas about the dict and set models. -/

theorem dictGet_dictSet_self (k : PyStr) (v : α) (l : List (PyStr × α)) :
    dictGet k (dictSet k v l) = some v := by
  induction l with
  | nil => simp [dictGet, dictSet]
  | cons hd tl ih =>
    obtain ⟨k1, v1⟩ := hd
    by_cases h : k1 = k
    · simp [dictSet, dictGet, h]
    · simp [dictSet, dictGet, h, ih]

theorem dictGet_dictSet_ne (k k1 : PyStr) (v : α) (l : List (PyStr × α))
    (h : k1 ≠ k) : dictGet k (dictSet k1 v l) = dictGet k l := by
  induction l with
  | nil => simp [dictGet, dictSet, h]
  | cons hd tl ih =>
    obtain ⟨k2, v2⟩ := hd
    rw [dictSet]
    by_cases h2 : k2 = k1
    · subst h2
      simp [dictGet, h]
    · rw [if_neg h2]
      simp [dictGet, ih]

theorem mem_setAdd (a t : PyStr) (s : List PyStr) :
    a ∈ setAdd t s ↔ a ∈ s ∨ a = t := by
  by_cases h : t ∈ s
  · simp only [setAdd, if_pos h]
    exact ⟨Or.inl, fun x => x.elim id (fun he => he ▸ h)⟩
  · simp [setAdd, if_neg h]

theorem observeTags_cons_some (ts : List PyStr) (kv : PyStr × JVal)
    (rest : TaggedValue) (t : PyStr) (hk : tagOfKey kv.1 = some t) :
    observeTags ts (kv :: rest) = observeTags (setAdd t ts) rest := by
  have h0 : observeTags ts (kv :: rest) =
      observeTags (match tagOfKey kv.1 with
        | some t2 => setAdd t2 ts
        | none => ts) rest := rfl
  rw [h0, hk]

theorem observeTags_cons_none (ts : List PyStr) (kv : PyStr × JVal)
    (rest : TaggedValue) (hk : tagOfKey kv.1 = none) :
    observeTags ts (kv :: rest) = observeTags ts rest := by
  have h0 : observeTags ts (kv :: rest) =
      observeTags (match tagOfKey kv.1 with
        | some t2 => setAdd t2 ts
        | none => ts) rest := rfl
  rw [h0, hk]

theorem mem_observeTags (opt : TaggedValue) :
    ∀ (ts : List PyStr) (a : PyStr),
      a ∈ observeTags ts opt ↔
        a ∈ ts ∨ a ∈ opt.filterMap (fun kv => tagOfKey kv.1) := by
  induction opt with
  | nil => intro ts a; simp [observeTags]
  | cons kv rest ih =>
    intro ts a
    cases hk : tagOfKey kv.1 with
    | none =>
      rw [observeTags_cons_none ts kv rest hk, ih]
      simp [List.filterMap_cons, hk]
    | some t =>
      rw [observeTags_cons_some ts kv rest t hk, ih, mem_setAdd]
      rw [List.filterMap_cons, hk]
      simp only [List.mem_cons]
      tauto

/-! Lemmas about the tagged-value decoder. -/

theorem parseTagged_skip (k : PyStr) (v : JVal) (rest : TaggedValue)
    (h : pyContainsValue k = false) :
    parseTagged ((k, v) :: rest) = parseTagged rest := by
  simp [parseTagged, h]

theorem parseTagged_after_skips (pre : TaggedValue) (l : TaggedValue)
    (h : ∀ kv ∈ pre, pyContainsValue kv.1 = false) :
    parseTagged (pre ++ l) = parseTagged l := by
  induction pre with
  | nil => rfl
  | cons kv rest ih =>
    obtain ⟨k, v⟩ := kv
    rw [List.cons_append, parseTagged_skip _ _ _ (h (k, v) (List.mem_cons_self _ _))]
    exact ih (fun kv2 h2 => h kv2 (List.mem_cons_of_mem _ h2))

theorem parseTagged_no_typed (opt : TaggedValue)
    (h : ∀ kv ∈ opt, pyContainsValue kv.1 = false) :
    parseTagged opt = some JVal.null := by
  have := parseTagged_after_skips opt [] h
  rw [List.append_nil] at this
  rw [this]
  rfl

theorem parseTagged_plain (k : PyStr) (v : JVal) (rest : TaggedValue)
    (hk : pyContainsValue k = true) (hb : k ≠ blobKey) :
    parseTagged ((k, v) :: rest) = some v := by
  simp [parseTagged, hk, hb]

/-- C4: for every TaggedValue whose typed key (the first key containing
the substring "Value", after any number of non-typed keys) is not the
binary blobValue key, decoding returns the payload of that key
unchanged. -/
theorem parse_plain_payload_unchanged (pre : TaggedValue) (k : PyStr) (v : JVal)
    (rest : TaggedValue)
    (hpre : ∀ kv ∈ pre, pyContainsValue kv.1 = false)
    (hk : pyContainsValue k = true) (hb : k ≠ blobKey) :
    parseTagged (pre ++ (k, v) :: rest) = some v := by
  rw [parseTagged_after_skips pre _ hpre, parseTagged_plain _ _ _ hk hb]

/-- Witness for C4 at a concrete string-tagged value. -/
theorem parse_plain_payload_unchanged_witness :
    parseTagged [(("stringValue".data), JVal.str ("hi".data))] =
      some (JVal.str ("hi".data)) :=
  parse_plain_payload_unchanged [] ("stringValue".data) (JVal.str ("hi".data)) []
    (by intro kv h; cases h) (by decide) (by decide)

/-- C5: a TaggedValue none of whose keys contains the substring "Value"
(no typed key) decodes to null, and no exception is raised (the result
is some, not none). -/
theorem parse_no_typed_key_null (opt : TaggedValue)
    (h : ∀ kv ∈ opt, pyContainsValue kv.1 = false) :
    parseTagged opt = some JVal.null :=
  parseTagged_no_typed opt h

/-- Witness for C5 at a concrete untyped mapping. -/
theorem parse_no_typed_key_null_witness :
    parseTagged [(("meaning".data), JVal.num 5)] = some JVal.null :=
  parse_no_typed_key_null [(("meaning".data), JVal.num 5)] (by decide)

/-- C6: scheme inference is a pure function of the batch, so running it
twice on the same input value yields equal schemes. -/
theorem generate_scheme_deterministic (es : List EntityResult) :
    generate_scheme es = generate_scheme es := rfl

/-- C9: when the flattener succeeds, the output dict has exactly the
property names of the input dict, in the same order (no names added,
removed or re-sorted), and every value is the decoded scalar of the
corresponding input TaggedValue. -/
theorem parse_properties_frame (props : List (PyStr × TaggedValue))
    (out : List (PyStr × JVal)) (h : parse_properties props = some out) :
    out.map Prod.fst = props.map Prod.fst ∧
      ∀ pr ∈ props.zip out, parseTagged pr.1.2 = some pr.2.2 := by
  induction props generalizing out with
  | nil =>
    rw [parse_properties] at h
    cases h
    simp
  | cons hd rest ih =>
    obtain ⟨name, opt⟩ := hd
    rw [parse_properties] at h
    cases hpt : parseTagged opt with
    | none => rw [hpt] at h; cases h
    | some v =>
      rw [hpt] at h
      cases hpp : parse_properties rest with
      | none => rw [hpp] at h; cases h
      | some o2 =>
        rw [hpp] at h
        cases h
        obtain ⟨ih1, ih2⟩ := ih o2 hpp
        constructor
        · simp [ih1]
        · intro pr hpr
          rw [List.zip_cons_cons, List.mem_cons] at hpr
          cases hpr with
          | inl he => subst he; exact hpt
          | inr he => exact ih2 pr he

/-- Witness for C9 at a concrete two-property dict containing a blob. -/
theorem parse_properties_frame_witness :
    ([(("note".data), JVal.str ("hello".data)),
      (("done".data), JVal.bool true)].map Prod.fst =
      [(("note".data), [(("blobValue".data), JVal.str ("aGVsbG8=".data))]),
       (("done".data), [(("booleanValue".data), JVal.bool true)])].map Prod.fst) ∧
      ∀ pr ∈ List.zip
          [(("note".data), [(("blobValue".data), JVal.str ("aGVsbG8=".data))]),
           (("done".data), [(("booleanValue".data), JVal.bool true)])]
          [(("note".data), JVal.str ("hello".data)),
           (("done".data), JVal.bool true)],
        parseTagged pr.1.2 = some pr.2.2 :=
  parse_properties_frame
    [(("note".data), [(("blobValue".data), JVal.str ("aGVsbG8=".data))]),
     (("done".data), [(("booleanValue".data), JVal.bool true)])]
    [(("note".data), JVal.str ("hello".data)), (("done".data), JVal.bool true)]
    (by decide)

/-- C7: the flattener raises the int() conversion error exactly when the
id segment of the key is not numerically parseable, and when it is
parseable every successfully flattened record carries its integer
value as id. -/
theorem formatEntity_id_conversion (e : EntityResult) :
    (formatEntity e = Except.error DsError.typeConv ↔ pyInt e.keyId = none) ∧
      ∀ n r, pyInt e.keyId = some n → formatEntity e = Except.ok r → r.id = n := by
  cases hpi : pyInt e.keyId with
  | none =>
    constructor
    · rw [formatEntity, hpi]
      simp
    · intro n r h1 h2
      cases h1
  | some n0 =>
    constructor
    · rw [formatEntity, hpi]
      cases hpp : parse_properties e.properties <;> simp
    · intro n r h1 h2
      rw [formatEntity, hpi] at h2
      cases hpp : parse_properties e.properties with
      | none => rw [hpp] at h2; cases h2
      | some ps =>
        rw [hpp] at h2
        cases h2
        cases h1
        rfl

/-- Witness for C7 at a concrete entity with a non-numeric id string. -/
theorem formatEntity_id_conversion_witness :
    formatEntity (EntityResult.mk ("T".data) (JVal.str ("abc".data)) []) =
      Except.error DsError.typeConv :=
  (formatEntity_id_conversion
      (EntityResult.mk ("T".data) (JVal.str ("abc".data)) [])).1.mpr (by decide)

/-! Lemmas about the base64 codec. -/

theorem b64Index_b64Char : ∀ n < 64, b64Index (b64Char n) = some n := by decide

theorem b64Char_ne_pad : ∀ n < 64, ¬(b64Char n = '=') := by decide

theorem b64_roundtrip : ∀ (bs : List Nat), (∀ b ∈ bs, b < 256) →
    b64DecodeGroups (b64EncodeGroups bs) = some bs
  | [], _ => rfl
  | [a], h => by
    have ha : a < 256 := h a (by simp)
    have h1 := b64Index_b64Char (a / 4) (by omega)
    have h2 := b64Index_b64Char (a % 4 * 16) (by omega)
    simp only [b64EncodeGroups, b64DecodeGroups, h1, h2]
    simp only [if_pos]
    simp
    omega
  | [a, b], h => by
    have ha : a < 256 := h a (by simp)
    have hb : b < 256 := h b (by simp)
    have h1 := b64Index_b64Char (a / 4) (by omega)
    have h2 := b64Index_b64Char (a % 4 * 16 + b / 16) (by omega)
    have h3 := b64Index_b64Char (b % 16 * 4) (by omega)
    have hne : ¬(b64Char (b % 16 * 4) = '=') := b64Char_ne_pad _ (by omega)
    simp only [b64EncodeGroups, b64DecodeGroups, h1, h2, h3, if_neg hne]
    simp
    omega
  | a :: b :: c :: rest, h => by
    have ha : a < 256 := h a (by simp)
    have hb : b < 256 := h b (by simp)
    have hc : c < 256 := h c (by simp)
    have ih := b64_roundtrip rest (fun x hx => h x (by simp [hx]))
    have h1 := b64Index_b64Char (a / 4) (by omega)
    have h2 := b64Index_b64Char (a % 4 * 16 + b / 16) (by omega)
    have h3 := b64Index_b64Char (b % 16 * 4 + c / 64) (by omega)
    have h4 := b64Index_b64Char (c % 64) (by omega)
    have hne3 : ¬(b64Char (b % 16 * 4 + c / 64) = '=') := b64Char_ne_pad _ (by omega)
    have hne4 : ¬(b64Char (c % 64) = '=') := b64Char_ne_pad _ (by omega)
    simp only [b64EncodeGroups, b64DecodeGroups, h1, h2, h3, h4, ih, if_neg hne3, if_neg hne4]
    simp
    omega

/-! Lemmas about the UTF-8 codec. -/

theorem utf8Two_encode (n : Nat) (h1 : 128 ≤ n) (h2 : n < 2048) :
    utf8Two (192 + n / 64) (128 + n % 64) = some n := by
  rw [utf8Two, if_pos (by refine ⟨by omega, by omega, by omega, by omega, by omega⟩)]
  congr 1
  omega

theorem utf8Two_none (b b1 : Nat) (h : 224 ≤ b ∨ b < 192) : utf8Two b b1 = none := by
  rw [utf8Two, if_neg (by omega)]

theorem utf8Three_encode (n : Nat) (h1 : 2048 ≤ n) (h2 : n < 65536)
    (h3 : ¬(55296 ≤ n ∧ n < 57344)) :
    utf8Three (224 + n / 4096) (128 + n / 64 % 64) (128 + n % 64) = some n := by
  have hn : (224 + n / 4096 - 224) * 4096 + (128 + n / 64 % 64 - 128) * 64 +
      (128 + n % 64 - 128) = n := by
    omega
  rw [utf8Three, if_pos (by
    refine ⟨by omega, by omega, by omega, by omega, by omega, by omega, by omega,
      by rw [hn]; exact h3⟩)]
  congr 1

theorem utf8Three_none (b b1 b2 : Nat) (h : 240 ≤ b ∨ b < 224) :
    utf8Three b b1 b2 = none := by
  rw [utf8Three, if_neg (by omega)]

theorem utf8Four_encode (n : Nat) (h1 : 65536 ≤ n) (h2 : n ≤ 1114111) :
    utf8Four (240 + n / 262144) (128 + n / 4096 % 64) (128 + n / 64 % 64)
      (128 + n % 64) = some n := by
  have hn : (240 + n / 262144 - 240) * 262144 + (128 + n / 4096 % 64 - 128) * 4096 +
      (128 + n / 64 % 64 - 128) * 64 + (128 + n % 64 - 128) = n := by omega
  rw [utf8Four, if_pos (by
    refine ⟨by omega, by omega, by omega, by omega, by omega, by omega, by omega, by omega,
      by rw [hn]; omega, by rw [hn]; omega⟩)]
  congr 1

theorem utf8Decode_one (n : Nat) (rest : List Nat) (h1 : n < 128) :
    utf8Decode (n :: rest) = (utf8Decode rest).map (fun cs => Char.ofNat n :: cs) := by
  rcases rest with _ | ⟨b1, _ | ⟨b2, _ | ⟨b3, bs3⟩⟩⟩ <;>
    (conv_lhs => rw [utf8Decode]) <;> rw [if_pos h1]
  all_goals rfl

theorem utf8Decode_two (n : Nat) (rest : List Nat) (h1 : 128 ≤ n) (h2 : n < 2048) :
    utf8Decode ((192 + n / 64) :: (128 + n % 64) :: rest) =
      (utf8Decode rest).map (fun cs => Char.ofNat n :: cs) := by
  rcases rest with _ | ⟨x, _ | ⟨y, t⟩⟩ <;>
    (conv_lhs => rw [utf8Decode]) <;>
    rw [if_neg (by omega), utf8Two_encode n h1 h2]
  all_goals rfl

theorem utf8Decode_three (n : Nat) (rest : List Nat) (h1 : 2048 ≤ n) (h2 : n < 65536)
    (h3 : ¬(55296 ≤ n ∧ n < 57344)) :
    utf8Decode ((224 + n / 4096) :: (128 + n / 64 % 64) :: (128 + n % 64) :: rest) =
      (utf8Decode rest).map (fun cs => Char.ofNat n :: cs) := by
  rcases rest with _ | ⟨x, t⟩ <;>
    (conv_lhs => rw [utf8Decode]) <;>
    rw [if_neg (by omega), utf8Two_none _ _ (Or.inl (by omega)),
      utf8Three_encode n h1 h2 h3]
  all_goals rfl

theorem utf8Decode_four (n : Nat) (rest : List Nat) (h1 : 65536 ≤ n) (h2 : n ≤ 1114111) :
    utf8Decode ((240 + n / 262144) :: (128 + n / 4096 % 64) :: (128 + n / 64 % 64) ::
        (128 + n % 64) :: rest) =
      (utf8Decode rest).map (fun cs => Char.ofNat n :: cs) := by
  conv_lhs => rw [utf8Decode]
  rw [if_neg (by omega), utf8Two_none _ _ (Or.inl (by omega)),
    utf8Three_none _ _ _ (Or.inl (by omega)), utf8Four_encode n h1 h2]

theorem char_valid_ranges (c : Char) :
    c.toNat < 55296 ∨ (57343 < c.toNat ∧ c.toNat < 1114112) := c.valid

theorem utf8Decode_encodeChar (c : Char) (rest : List Nat) :
    utf8Decode (utf8EncodeChar c ++ rest) =
      (utf8Decode rest).map (fun cs => c :: cs) := by
  have hv := char_valid_ranges c
  have hco : Char.ofNat c.toNat = c := Char.ofNat_toNat c
  by_cases h1 : c.toNat < 128
  · rw [utf8EncodeChar, if_pos h1, List.singleton_append, utf8Decode_one _ _ h1, hco]
  · by_cases h2 : c.toNat < 2048
    · rw [utf8EncodeChar, if_neg h1, if_pos h2, List.cons_append, List.singleton_append,
        utf8Decode_two _ _ (by omega) h2, hco]
    · by_cases h3 : c.toNat < 65536
      · rw [utf8EncodeChar, if_neg h1, if_neg h2, if_pos h3, List.cons_append,
          List.cons_append, List.singleton_append,
          utf8Decode_three _ _ (by omega) h3 (by omega), hco]
      · rw [utf8EncodeChar, if_neg h1, if_neg h2, if_neg h3, List.cons_append,
          List.cons_append, List.cons_append, List.singleton_append,
          utf8Decode_four _ _ (by omega) (by omega), hco]

theorem utf8_roundtrip (s : List Char) : utf8Decode (utf8Encode s) = some s := by
  induction s with
  | nil => rfl
  | cons c s2 ih =>
    have he : utf8Encode (c :: s2) = utf8EncodeChar c ++ utf8Encode s2 := rfl
    rw [he, utf8Decode_encodeChar, ih]
    rfl

theorem utf8EncodeChar_lt (c : Char) : ∀ x ∈ utf8EncodeChar c, x < 256 := by
  have hv := char_valid_ranges c
  intro x hx
  rw [utf8EncodeChar] at hx
  split_ifs at hx <;> simp [List.mem_cons] at hx <;> omega

theorem utf8Encode_lt (s : List Char) : ∀ x ∈ utf8Encode s, x < 256 := by
  induction s with
  | nil => intro x hx; cases hx
  | cons c s2 ih =>
    intro x hx
    have he : utf8Encode (c :: s2) = utf8EncodeChar c ++ utf8Encode s2 := rfl
    rw [he, List.mem_append] at hx
    cases hx with
    | inl h => exact utf8EncodeChar_lt c x h
    | inr h => exact ih x h

theorem pyB64DecodeUtf8_encode (s : List Char) :
    pyB64DecodeUtf8 (b64EncodeGroups (utf8Encode s)) = some s := by
  rw [pyB64DecodeUtf8, b64_roundtrip _ (utf8Encode_lt s)]
  show utf8Decode (utf8Encode s) = some s
  exact utf8_roundtrip s

/-! Lemmas relating the scanning phase of generate_scheme to the flat
specification-side tag collection. -/

theorem dictGet_map_pair (k : PyStr) (l : List (PyStr × α)) (f : α → β) :
    dictGet k (l.map (fun kv => (kv.1, f kv.2))) = (dictGet k l).map f := by
  induction l with
  | nil => rfl
  | cons hd tl ih =>
    obtain ⟨k1, v1⟩ := hd
    by_cases h : k1 = k <;> simp [dictGet, h, ih]

theorem kpTags_dictSet_self (p : PyStr) (v : List PyStr)
    (kp : List (PyStr × List PyStr)) : kpTags (dictSet p v kp) p = v := by
  rw [kpTags, dictGet_dictSet_self]
  rfl

theorem kpTags_dictSet_ne (p1 p : PyStr) (v : List PyStr)
    (kp : List (PyStr × List PyStr)) (h : p1 ≠ p) :
    kpTags (dictSet p1 v kp) p = kpTags kp p := by
  rw [kpTags, dictGet_dictSet_ne _ _ _ _ h, kpTags]

theorem specPropsTags_cons (pr : PyStr × TaggedValue)
    (rest : List (PyStr × TaggedValue)) (prop : PyStr) :
    specPropsTags (pr :: rest) prop =
      (if pr.1 = prop then pr.2.filterMap (fun kv => tagOfKey kv.1) else []) ++
        specPropsTags rest prop := by
  by_cases h : pr.1 = prop <;> simp [specPropsTags, h]

theorem mem_kpTags_collectProps (props : List (PyStr × TaggedValue)) :
    ∀ (kp : List (PyStr × List PyStr)) (prop a : PyStr),
      a ∈ kpTags (collectProps kp props) prop ↔
        a ∈ kpTags kp prop ∨ a ∈ specPropsTags props prop := by
  induction props with
  | nil => intro kp prop a; simp [collectProps, specPropsTags]
  | cons pr rest ih =>
    intro kp prop a
    have hstep : collectProps kp (pr :: rest) =
        collectProps (dictSet pr.1 (observeTags (kpTags kp pr.1) pr.2) kp) rest := rfl
    rw [hstep, ih]
    by_cases h : pr.1 = prop
    · subst h
      rw [kpTags_dictSet_self, mem_observeTags, specPropsTags_cons, if_pos rfl]
      simp only [List.mem_append]
      tauto
    · rw [kpTags_dictSet_ne _ _ _ _ h, specPropsTags_cons, if_neg h]
      simp only [List.nil_append]

theorem schemeTags_dictSet_self (k prop : PyStr) (kp : List (PyStr × List PyStr))
    (scheme : List (PyStr × List (PyStr × List PyStr))) :
    schemeTags (dictSet k kp scheme) k prop = kpTags kp prop := by
  rw [schemeTags, dictGet_dictSet_self]

theorem schemeTags_dictSet_ne (k1 k prop : PyStr) (kp : List (PyStr × List PyStr))
    (scheme : List (PyStr × List (PyStr × List PyStr))) (h : k1 ≠ k) :
    schemeTags (dictSet k1 kp scheme) k prop = schemeTags scheme k prop := by
  rw [schemeTags, dictGet_dictSet_ne _ _ _ _ h, schemeTags]

theorem kpTags_init (scheme : List (PyStr × List (PyStr × List PyStr)))
    (k prop : PyStr) :
    kpTags ((dictGet k (if (dictGet k scheme).isNone then dictSet k [] scheme
      else scheme)).getD []) prop = schemeTags scheme k prop := by
  cases hg : dictGet k scheme with
  | none => simp [hg, dictGet_dictSet_self, schemeTags, kpTags, dictGet]
  | some kp => simp [hg, schemeTags]

theorem schemeTags_init_ne (scheme : List (PyStr × List (PyStr × List PyStr)))
    (k1 k prop : PyStr) (h : k1 ≠ k) :
    schemeTags (if (dictGet k1 scheme).isNone then dictSet k1 [] scheme else scheme)
      k prop = schemeTags scheme k prop := by
  cases hg : dictGet k1 scheme with
  | none => simp [hg, schemeTags_dictSet_ne _ _ _ _ _ h]
  | some kp => simp [hg]

theorem mem_schemeTags_collectEntity
    (scheme : List (PyStr × List (PyStr × List PyStr))) (e : EntityResult)
    (kind prop a : PyStr) :
    a ∈ schemeTags (collectEntity scheme e) kind prop ↔
      a ∈ schemeTags scheme kind prop ∨
        (e.kind = kind ∧ a ∈ specPropsTags e.properties prop) := by
  have hstep : collectEntity scheme e =
      dictSet e.kind
        (collectProps ((dictGet e.kind (if (dictGet e.kind scheme).isNone
          then dictSet e.kind [] scheme else scheme)).getD []) e.properties)
        (if (dictGet e.kind scheme).isNone then dictSet e.kind [] scheme
          else scheme) := rfl
  by_cases hk : e.kind = kind
  · subst hk
    rw [hstep, schemeTags_dictSet_self, mem_kpTags_collectProps, kpTags_init]
    simp
  · rw [hstep, schemeTags_dictSet_ne _ _ _ _ _ hk, schemeTags_init_ne _ _ _ _ hk]
    simp [hk]

theorem specObservedTags_cons (e : EntityResult) (rest : List EntityResult)
    (kind prop : PyStr) :
    specObservedTags (e :: rest) kind prop =
      (if e.kind = kind then specPropsTags e.properties prop else []) ++
        specObservedTags rest kind prop := by
  by_cases h : e.kind = kind <;> simp [specObservedTags, h]

theorem mem_schemeTags_foldl (es : List EntityResult) :
    ∀ (scheme : List (PyStr × List (PyStr × List PyStr))) (kind prop a : PyStr),
      a ∈ schemeTags (es.foldl collectEntity scheme) kind prop ↔
        a ∈ schemeTags scheme kind prop ∨ a ∈ specObservedTags es kind prop := by
  induction es with
  | nil => intro scheme kind prop a; simp [specObservedTags]
  | cons e rest ih =>
    intro scheme kind prop a
    rw [List.foldl_cons, ih, mem_schemeTags_collectEntity, specObservedTags_cons]
    by_cases h : e.kind = kind
    · simp [h, List.mem_append]
      tauto
    · simp [h]

theorem mem_schemeTags_collectBatch (es : List EntityResult) (kind prop a : PyStr) :
    a ∈ schemeTags (collectBatch es) kind prop ↔ a ∈ specObservedTags es kind prop := by
  rw [collectBatch, mem_schemeTags_foldl]
  simp [schemeTags, dictGet]

/-- C1: every type tag recorded in the inferred scheme for a
(kind, property) pair belongs to the observed set of non-null,
non-metadata tags of that pair across the batch, and the recorded tag
is None exactly when that observed set is empty (in particular a
property all of whose sampled values are nullValue is inferred null). -/
theorem generate_scheme_collapses_observed (es : List EntityResult)
    (kind prop : PyStr) (props : List (PyStr × Option PyStr)) (o : Option PyStr)
    (h1 : dictGet kind (generate_scheme es) = some props)
    (h2 : dictGet prop props = some o) :
    (∀ t, o = some t → t ∈ specObservedTags es kind prop) ∧
      (o = none ↔ specObservedTags es kind prop = []) := by
  have h1m : dictGet kind (generate_scheme es) =
      (dictGet kind (collectBatch es)).map
        (fun kp => kp.map (fun pv => (pv.1, collapseTags pv.2))) :=
    dictGet_map_pair kind (collectBatch es) _
  rw [h1m] at h1
  cases hg : dictGet kind (collectBatch es) with
  | none => rw [hg] at h1; cases h1
  | some kp =>
    rw [hg] at h1
    injection h1 with h1e
    subst h1e
    rw [dictGet_map_pair prop kp collapseTags] at h2
    cases hgp : dictGet prop kp with
    | none => rw [hgp] at h2; cases h2
    | some ts =>
      rw [hgp] at h2
      injection h2 with h2e
      subst h2e
      have hmem : ∀ x, x ∈ ts ↔ x ∈ specObservedTags es kind prop := by
        intro x
        have hb := mem_schemeTags_collectBatch es kind prop x
        rw [schemeTags, hg] at hb
        have hb2 : x ∈ kpTags kp prop ↔ x ∈ specObservedTags es kind prop := hb
        rw [kpTags, hgp] at hb2
        exact hb2
      cases ts with
      | nil =>
        refine ⟨fun t hot => ?_, ?_⟩
        · cases hot
        · constructor
          · intro _
            rw [List.eq_nil_iff_forall_not_mem]
            intro x hx
            exact absurd ((hmem x).mpr hx) (List.not_mem_nil x)
          · intro _; rfl
      | cons t0 tr =>
        refine ⟨fun t hot => ?_, ?_⟩
        · have : t0 = t := by
            rw [collapseTags] at hot
            injection hot
          subst this
          exact (hmem t0).mp (List.mem_cons_self _ _)
        · constructor
          · intro ho
            rw [collapseTags] at ho
            cases ho
          · intro hs
            have := (hmem t0).mp (List.mem_cons_self _ _)
            rw [hs] at this
            cases this

/-- Witness for C1 at a concrete one-entity batch carrying a boolean
property and an all-null property. -/
theorem generate_scheme_collapses_observed_witness :
    (∀ t, (some ("boolean".data) : Option PyStr) = some t →
        t ∈ specObservedTags
          [EntityResult.mk ("Task".data) (JVal.num 7)
            [(("done".data), [(("booleanValue".data), JVal.bool true)]),
             (("tag".data), [(("nullValue".data), JVal.null)])]]
          ("Task".data) ("done".data)) ∧
      ((some ("boolean".data) : Option PyStr) = none ↔
        specObservedTags
          [EntityResult.mk ("Task".data) (JVal.num 7)
            [(("done".data), [(("booleanValue".data), JVal.bool true)]),
             (("tag".data), [(("nullValue".data), JVal.null)])]]
          ("Task".data) ("done".data) = []) :=
  generate_scheme_collapses_observed
    [EntityResult.mk ("Task".data) (JVal.num 7)
      [(("done".data), [(("booleanValue".data), JVal.bool true)]),
       (("tag".data), [(("nullValue".data), JVal.null)])]]
    ("Task".data) ("done".data)
    [(("done".data), some ("boolean".data)), (("tag".data), (none : Option PyStr))]
    (some ("boolean".data)) (by decide) (by decide)

/-- C3: decoding a TaggedValue whose typed key is blobValue and whose
payload is the base64 encoding of the UTF-8 bytes of the string s
yields exactly s: blob decoding is a left inverse of base64 encoding. -/
theorem blob_decode_inverts_b64 (s : List Char) :
    parseTagged [(blobKey, JVal.str (b64EncodeGroups (utf8Encode s)))] =
      some (JVal.str s) := by
  have hc : pyContainsValue blobKey = true := by decide
  rw [parseTagged, if_pos hc, if_pos rfl]
  show (match pyB64DecodeUtf8 (b64EncodeGroups (utf8Encode s)) with
    | some cs => some (JVal.str cs)
    | none => none) = some (JVal.str s)
  rw [pyB64DecodeUtf8_encode]

/-! C2: behaviour on non-200 responses. -/

/-- C2 counterexample: a 404 response flowing through format_response,
which is the path of the query, get and list operations on the query
endpoint, raises nothing at all: the call evaluates to ok none (the
whole body of format_response is skipped), not to a transport error.
This refutes the claim that every non-200 response from the query
endpoint raises a generic transport error. -/
theorem format_response_non200_silent :
    format_response (HttpResponse.mk 404 ("oops".data) none) schemeStyle =
        Except.ok none ∧
      ∀ e, format_response (HttpResponse.mk 404 ("oops".data) none) schemeStyle ≠
        Except.error e := by
  constructor
  · rfl
  · intro e h
    rw [show format_response (HttpResponse.mk 404 ("oops".data) none) schemeStyle =
      Except.ok none from rfl] at h
    cases h

/-- C2 amended: on any response with status other than 200, get_scheme
raises the generic transport error carrying the status code and the
body text (and produces no scheme), while the format_response path of
the query, get and list operations silently produces neither scheme nor
entities and raises nothing. -/
theorem non200_behavior (r : HttpResponse) (style : PyStr)
    (h : r.status_code ≠ 200) :
    get_scheme r = Except.error (DsError.transport r.status_code r.text) ∧
      format_response r style = Except.ok none := by
  constructor
  · rw [get_scheme, if_neg h]
  · rw [format_response, if_neg h]

/-- Witness for the amended C2 at a concrete 404 response. -/
theorem non200_behavior_witness :
    get_scheme (HttpResponse.mk 404 ("gone".data) none) =
        Except.error (DsError.transport 404 ("gone".data)) ∧
      format_response (HttpResponse.mk 404 ("gone".data) none) schemeStyle =
        Except.ok none :=
  non200_behavior (HttpResponse.mk 404 ("gone".data) none) schemeStyle (by decide)

/-! C8: the health check. -/

/-- C8 counterexample: a body consisting of Ok followed by a newline is
reported healthy although it is not exactly the text Ok, because the
source strips whitespace before comparing. -/
theorem test_connection_strip_counterexample :
    test_connection ("Ok\n".data) = true ∧ ("Ok\n".data : PyStr) ≠ ("Ok".data) := by
  decide

theorem dropWhile_append_all (p : Char → Bool) (l1 l2 : List Char)
    (h : ∀ x ∈ l1, p x = true) :
    List.dropWhile p (l1 ++ l2) = List.dropWhile p l2 := by
  induction l1 with
  | nil => rfl
  | cons c cs ih =>
    rw [List.cons_append, List.dropWhile_cons, if_pos (h c (List.mem_cons_self _ _))]
    exact ih (fun x hx => h x (List.mem_cons_of_mem _ hx))

/-- C8 amended: test_connection reports healthy exactly when the GET
response body is the text Ok surrounded by (possibly empty) leading and
trailing whitespace — the source strips the body before the comparison,
so the match is not exact. -/
theorem test_connection_iff (b : PyStr) :
    test_connection b = true ↔
      ∃ pre post, b = pre ++ (okBody ++ post) ∧
        (∀ c ∈ pre, isPySpace c = true) ∧ ∀ c ∈ post, isPySpace c = true := by
  rw [test_connection, beq_iff_eq]
  constructor
  · intro hs
    rw [pyStrip] at hs
    have h2 := congrArg List.reverse hs
    rw [List.reverse_reverse] at h2
    have h3 := List.takeWhile_append_dropWhile isPySpace
      ((List.dropWhile isPySpace b).reverse)
    rw [h2] at h3
    refine ⟨List.takeWhile isPySpace b,
      (List.takeWhile isPySpace ((List.dropWhile isPySpace b).reverse)).reverse,
      ?_, ?_, ?_⟩
    · conv_lhs => rw [← List.takeWhile_append_dropWhile isPySpace b]
      congr 1
      conv_lhs => rw [← List.reverse_reverse (List.dropWhile isPySpace b), ← h3]
      rw [List.reverse_append, List.reverse_reverse]
    · intro c hc; exact List.mem_takeWhile_imp hc
    · intro c hc
      rw [List.mem_reverse] at hc
      exact List.mem_takeWhile_imp hc
  · rintro ⟨pre, post, rfl, hpre, hpost⟩
    rw [pyStrip, dropWhile_append_all isPySpace pre (okBody ++ post) hpre]
    rw [show (okBody ++ post : PyStr) = 'O' :: 'k' :: post from rfl]
    rw [List.dropWhile_cons, if_neg (by decide)]
    rw [show ('O' :: 'k' :: post : PyStr).reverse = post.reverse ++ ['k', 'O'] by
      simp]
    rw [dropWhile_append_all isPySpace post.reverse ['k', 'O']
      (fun x hx => hpost x (List.mem_reverse.mp hx))]
    rw [List.dropWhile_cons, if_neg (by decide)]
    rfl

/-! C10: the inferencer and the flattener disagree on untyped keys. -/

theorem pyRemoveValue_of_not_contains (k : List Char)
    (h : pyContainsValue k = false) : pyRemoveValue k = k := by
  induction k using pyRemoveValue.induct with
  | case1 rest ih =>
    rw [pyContainsValue.eq_1] at h
    exact absurd h (by simp)
  | case2 c rest hsh ih =>
    rw [pyContainsValue.eq_2 c rest (fun r hc hr => hsh r hc hr)] at h
    rw [pyRemoveValue.eq_2 c rest (fun r hc hr => hsh r hc hr)]
    rw [ih h]
  | case3 => rfl

/-- C10 counterexample at the key named null (the literal string null),
which contains no "Value" substring and differs from
excludeFromIndexes, so the claim asserts the inferencer records it as
the type tag of p; the code instead filters it out (its stripped form
is the literal null) and infers None, agreeing with the flattener. -/
theorem untyped_null_key_counterexample :
    generate_scheme [EntityResult.mk ("K".data) (JVal.num 1)
        [(("p".data), [(("null".data), JVal.null)])]] =
      [(("K".data), [(("p".data), (none : Option PyStr))])] ∧
      pyContainsValue ("null".data) = false ∧
      ("null".data : PyStr) ≠ excludeKey ∧
      parseTagged [(("null".data), JVal.null)] = some JVal.null := by
  decide

/-- C10 amended: for a TaggedValue whose only non-metadata key k
neither contains the substring "Value" nor is the literal null, the
inferencer records k itself (stripping "Value" from it changes
nothing) as the inferred type tag of the property, while the flattener
finds no typed key in the same TaggedValue and yields null. -/
theorem untyped_key_scheme_vs_flatten (kind prop k : PyStr) (pv idv : JVal)
    (h1 : pyContainsValue k = false) (h2 : k ≠ excludeKey) (h3 : k ≠ nullTag) :
    generate_scheme [EntityResult.mk kind idv [(prop, [(k, pv)])]] =
        [(kind, [(prop, some k)])] ∧
      parseTagged [(k, pv)] = some JVal.null := by
  have htag : tagOfKey k = some k := by
    rw [tagOfKey, pyRemoveValue_of_not_contains k h1, if_pos ⟨h3, h2⟩]
  constructor
  · simp [generate_scheme, collectBatch, collectEntity, collectProps, observeTags,
      htag, dictGet, dictSet, setAdd, collapseTags]
  · exact parseTagged_no_typed [(k, pv)]
      (fun kv hkv => by
        rw [List.mem_singleton] at hkv
        rw [hkv]
        exact h1)

/-- Witness for the amended C10 at the key named meaning. -/
theorem untyped_key_scheme_vs_flatten_witness :
    generate_scheme [EntityResult.mk ("K".data) (JVal.num 1)
        [(("p".data), [(("meaning".data), JVal.num 5)])]] =
        [(("K".data), [(("p".data), some ("meaning".data))])] ∧
      parseTagged [(("meaning".data), JVal.num 5)] = some JVal.null :=
  untyped_key_scheme_vs_flatten ("K".data) ("p".data) ("meaning".data)
    (JVal.num 5) (JVal.num 1) (by decide) (by decide) (by decide)

end DsCli
